import Mathlib

/-!
Shallow embedding of the raster-to-tile-pyramid renderer of `script.js`
(functions `latLonToTile`, `tileToBoundingBox`, `buildColorScaleFromData`,
`valueToColor`, `calculateTileBounds`, `generateTileFromData`,
`processGeoTIFF`) and proofs about it.

Conventions of the embedding:
* JS numbers appearing in the geometry are modelled as real numbers `ℝ`;
  the raster sample values and colors, whose arithmetic is exact, as `ℚ`.
* A JS `NaN` (or `undefined`/`null`/non-finite) input slot is modelled by
  `Option`'s `none`.
* `Math.floor` is `Int.floor`, `Math.pow 2 z` for a natural zoom is `2 ^ z`.
* The file system touched by the tile writer is modelled by `FS` below:
  a set of `{z}/{x}` directories and a map from `(z, x, y)` coordinates to
  file contents; rendering and PNG encoding are abstracted into a
  deterministic `render` function, as `generateTileFromData` computes the
  pixel buffer deterministically from run-constant inputs.
-/

namespace Darkside

/-! ## Color model (from `buildColorScaleFromData` and `valueToColor`) -/

/-- An RGBA color as produced by `valueToColor` ({r, g, b, alpha}). -/
structure RGBA where
  r : ℚ
  g : ℚ
  b : ℚ
  alpha : ℚ
  deriving DecidableEq

/-- The value of the `COLOR_SCALE` global: quantile breaks plus the fixed
7-color ramp. -/
structure ColorScale where
  breaks : List ℚ
  colors : List RGBA
  deriving DecidableEq

/-- The fixed 7-color ramp of `buildColorScaleFromData` (lines 397-405). -/
def viirsColors : List RGBA :=
  [ ⟨0,   80,  0,   0.35⟩,
    ⟨0,   160, 0,   0.45⟩,
    ⟨180, 220, 0,   0.55⟩,
    ⟨255, 215, 0,   0.68⟩,
    ⟨255, 140, 0,   0.80⟩,
    ⟨255, 0,   0,   0.90⟩,
    ⟨255, 255, 255, 0.95⟩ ]

/-- The `while (idx < breaks.length && value > breaks[idx]) idx++;` loop of
`valueToColor` (line 422): the length of the longest prefix of `breaks`
whose entries are all below `value`. -/
def rampIndex (breaks : List ℚ) (value : ℚ) : ℕ :=
  (breaks.takeWhile (fun b => b < value)).length

/-- The sampling stride of `buildColorScaleFromData` (lines 384-386):
`step = max(1, ⌊len / max(1, min(500000, ⌊len * 0.02⌋))⌋)` (the inner
division of naturals is already the JS `Math.floor` of the quotient). -/
def sampleStride (len : ℕ) : ℕ :=
  max 1 (len / max 1 (min 500000 (Int.toNat ⌊(len : ℚ) * 0.02⌋)))

/-- The strided sampling loop of `buildColorScaleFromData` (lines 387-391):
`for (i = 0; i < len; i += step)` visits the indices `k * step` for
`k < ⌈len / step⌉`, keeping values that are `> 0` (and finite, which every
`ℚ` is). -/
def sampledValues (data : List ℚ) : List ℚ :=
  ((List.range ((data.length + sampleStride data.length - 1) / sampleStride data.length)).map
    fun k => data.getD (k * sampleStride data.length) 0).filter fun v => 0 < v

/-- The quantile accessor `q` of `buildColorScaleFromData` (line 394):
`samples[min(len - 1, max(0, ⌊p * (len - 1)⌋))]` on the sorted samples
(`Int.toNat` is the `Math.max(0, ·)` on the floor). -/
def quantileOf (sorted : List ℚ) (p : ℚ) : ℚ :=
  sorted.getD (min (sorted.length - 1) (Int.toNat ⌊p * ((sorted.length : ℚ) - 1)⌋)) 0

/-- `buildColorScaleFromData` (lines 382-411).  JS `Array.prototype.sort`
with comparator `a - b` sorts ascending; `insertionSort` does the same. -/
def buildColorScaleFromData (data : List ℚ) : Option ColorScale :=
  let samples := sampledValues data
  if samples.length = 0 then none
  else
    let sorted := List.insertionSort (· ≤ ·) samples
    some { breaks := [quantileOf sorted 0.20, quantileOf sorted 0.40, quantileOf sorted 0.60,
                      quantileOf sorted 0.80, quantileOf sorted 0.90, quantileOf sorted 0.98],
           colors := viirsColors }

/-- `valueToColor` (lines 414-432).  The global `COLOR_SCALE` is passed
explicitly; `none` for `value` models `undefined`/`null`/`NaN`/`±Infinity`
(every one of which the guard on line 416 sends to transparent). -/
def valueToColor (scale : Option ColorScale) (value : Option ℚ) : RGBA :=
  match value with
  | none => ⟨0, 0, 0, 0⟩
  | some v =>
    if v ≤ 0 then ⟨0, 0, 0, 0⟩
    else
      match scale with
      | some cs =>
        let idx := rampIndex cs.breaks v
        cs.colors.getD (min idx (cs.colors.length - 1)) ⟨0, 0, 0, 0⟩
      | none =>
        let n : ℚ := max 0 (min 1 (v / 1000))
        ⟨((⌊255 * n⌋ : ℤ) : ℚ), ((⌊255 * (1 - n)⌋ : ℤ) : ℚ), 0, 0.3 + 0.6 * n⟩

/-- The synthetic uniform sample sequence {1, …, 100} of spec §8. -/
def dataHundred : List ℚ := (List.range 100).map fun i : ℕ => (i : ℚ) + 1

/-! ## Tile pyramid writer (from `generateTileFromData` and `processGeoTIFF`) -/

/-- What the per-tile rasterizer produces: the `anyOpaque` flag and the
encoded PNG bytes (abstracted to a number). -/
structure TileRender where
  anyOpaque : Bool
  bytes : ℕ
  deriving DecidableEq

/-- The part of the output tree that `generateTileFromData` can observe and
modify: the set of `{z}/{x}` directories and the files `{z}/{x}/{y}.png`. -/
@[ext]
structure FS where
  dirs : ℕ × ℕ → Bool
  files : ℕ × ℕ × ℕ → Option ℕ

/-- The writer policy of `generateTileFromData` (lines 563-674) for tile
`c = (zoom, x, y)`: create the `{z}/{x}` directory, skip when
`skipExisting` and the file exists, otherwise render; if `skipEmpty` and
nothing is opaque, delete any stale file and write nothing, else write the
encoded tile.  `render` abstracts the deterministic pixel loop
(lines 580-639) together with the `sharp` PNG encoding. -/
def generateTileFromData (skipExisting skipEmpty : Bool)
    (render : ℕ × ℕ × ℕ → TileRender) (fs : FS) (c : ℕ × ℕ × ℕ) : FS :=
  let fs1 : FS := { fs with dirs := fun d => if d = (c.1, c.2.1) then true else fs.dirs d }
  if skipExisting && (fs1.files c).isSome then fs1
  else
    let t := render c
    if skipEmpty && !t.anyOpaque then
      { fs1 with files := fun c2 => if c2 = c then none else fs1.files c2 }
    else
      { fs1 with files := fun c2 => if c2 = c then some t.bytes else fs1.files c2 }

/-- The tile loop of `processGeoTIFF` (lines 757-769): the visited
coordinates, in order, each handled by `generateTileFromData`. -/
def runTiles (skipExisting skipEmpty : Bool) (render : ℕ × ℕ × ℕ → TileRender)
    (cs : List (ℕ × ℕ × ℕ)) (fs : FS) : FS :=
  cs.foldl (generateTileFromData skipExisting skipEmpty render) fs

/-- State of one coordinate after a `skipExisting` run has visited it:
its directory exists, and either its file exists or the tile renders empty
(and was purged) under `skipEmpty`. -/
def Visited (skipEmpty : Bool) (render : ℕ × ℕ × ℕ → TileRender)
    (fs : FS) (c : ℕ × ℕ × ℕ) : Prop :=
  fs.dirs (c.1, c.2.1) = true ∧
    ((fs.files c).isSome = true ∨
      (skipEmpty = true ∧ fs.files c = none ∧ (render c).anyOpaque = false))

/-- A render function producing only fully transparent tiles. -/
def renderEmpty : ℕ × ℕ × ℕ → TileRender := fun _ => ⟨false, 0⟩

/-- A render function producing only opaque tiles. -/
def renderOpaque : ℕ × ℕ × ℕ → TileRender := fun _ => ⟨true, 7⟩

/-- An empty output tree. -/
def emptyFS : FS := ⟨fun _ => false, fun _ => none⟩

/-- A tree holding files at `1/2/3` and at `0/0/0`. -/
def twoFileFS : FS :=
  ⟨fun _ => false, fun c2 => if c2 = (1, 2, 3) then some 9 else
    if c2 = (0, 0, 0) then some 5 else none⟩

/-! ## Tile addressing (from `latLonToTile` and `tileToBoundingBox`) -/

/-- A `{x, y}` tile-coordinate pair as returned by `latLonToTile`.  The JS
function returns numbers (integers whenever its input is sane, which is
proved below, not baked into the type). -/
structure TileXY where
  x : ℝ
  y : ℝ

/-- The `{north, south, east, west}` object returned by
`tileToBoundingBox`. -/
structure TileBBox where
  north : ℝ
  south : ℝ
  east : ℝ
  west : ℝ

/-- The `latFactor` of `latLonToTile` (lines 326-333): clamp the latitude
to ±85.0511, convert to radians, and take
`Math.log(Math.tan(latRad) + 1 / Math.cos(latRad))`. -/
noncomputable def latFactorOf (lat : ℝ) : ℝ :=
  let clampedLat := max (-85.0511) (min 85.0511 lat)
  let latRad := clampedLat * Real.pi / 180
  Real.log (Real.tan latRad + 1 / Real.cos latRad)

/-- The `yTile` computation of `latLonToTile` (lines 334-341), with the
`isNaN(latFactor) || !isFinite(latFactor)` branch made explicit: `none`
models a non-finite `latFactor` and resolves to the pole-adjacent row from
the sign of the (unclamped) input latitude; a finite factor goes through
the Web Mercator row formula.  (In exact real arithmetic the factor of
`latFactorOf` is always finite.) -/
noncomputable def yTileFromLatFactor (latFactorOpt : Option ℝ) (lat : ℝ) (n : ℝ) : ℝ :=
  match latFactorOpt with
  | none => if lat > 0 then 0 else n - 1
  | some latFactor => (⌊(1 - latFactor / Real.pi) / 2 * n⌋ : ℤ)

/-- Body of `latLonToTile` after the NaN guard (lines 325-348),
parameterized by the (possibly non-finite) `latFactor`:
`xTile = ⌊(lon + 180) / 360 * n⌋` with `n = 2^zoom`, `yTile` from
`yTileFromLatFactor`, both clamped into `[0, n - 1]`. -/
noncomputable def latLonToTileWithFactor (latFactorOpt : Option ℝ)
    (lat lon : ℝ) (zoom : ℕ) : TileXY :=
  let n : ℝ := 2 ^ zoom
  let xTile : ℝ := (⌊(lon + 180) / 360 * n⌋ : ℤ)
  let yTile : ℝ := yTileFromLatFactor latFactorOpt lat n
  let maxTile := n - 1
  ⟨max 0 (min maxTile xTile), max 0 (min maxTile yTile)⟩

/-- `latLonToTile` on in-range (non-NaN) numeric inputs (lines 325-348). -/
noncomputable def latLonToTileCore (lat lon : ℝ) (zoom : ℕ) : TileXY :=
  latLonToTileWithFactor (some (latFactorOf lat)) lat lon zoom

/-- Full `latLonToTile` (lines 318-349), including the
`isNaN(lat) || isNaN(lon) || isNaN(zoom)` guard that returns `{x: 0, y: 0}`;
a `none` argument models a `NaN`. -/
noncomputable def latLonToTile (lat lon : Option ℝ) (zoom : Option ℕ) : TileXY :=
  match lat, lon, zoom with
  | some la, some lo, some z => latLonToTileCore la lo z
  | _, _, _ => ⟨0, 0⟩

/-- `tileToBoundingBox` (lines 352-365). -/
noncomputable def tileToBoundingBox (x y : ℝ) (zoom : ℕ) : TileBBox :=
  let n : ℝ := 2 ^ zoom
  let lonWest := x / n * 360 - 180
  let latNorth := Real.arctan (Real.sinh (Real.pi * (1 - 2 * y / n))) * 180 / Real.pi
  let lonEast := (x + 1) / n * 360 - 180
  let latSouth := Real.arctan (Real.sinh (Real.pi * (1 - 2 * (y + 1) / n))) * 180 / Real.pi
  ⟨latNorth, latSouth, lonEast, lonWest⟩

/-! ## Bounding-box conversion of `calculateTileBounds` -/

/-- The inverse-Mercator `lonFromX` of the WebMercator branch of
`calculateTileBounds` (line 460). -/
noncomputable def lonFromX (x : ℝ) : ℝ :=
  max (-180) (min 180 (x / 6378137 * (180 / Real.pi)))

/-- The inverse-Mercator `latFromY` of the WebMercator branch of
`calculateTileBounds` (lines 461-466). -/
noncomputable def latFromY (y : ℝ) : ℝ :=
  let latRad := 2 * Real.arctan (Real.exp (y / 6378137)) - Real.pi / 2
  let latDeg := latRad * (180 / Real.pi)
  max (-85.05112878) (min 85.05112878 latDeg)

/-- The latitude clamp to the Web Mercator valid range used by both
branches of `calculateTileBounds` (lines 465, 493-494). -/
noncomputable def clampMercLat (lat : ℝ) : ℝ :=
  max (-85.05112878) (min 85.05112878 lat)

/-- The `normalizeLon` loops of the Geographic branch (lines 497-502):
repeatedly subtract 360 while above 180, then repeatedly add 360 while
below −180 (each loop in closed form via a ceiling). -/
noncomputable def normalizeLon (lon : ℝ) : ℝ :=
  let l1 := if lon > 180 then lon - 360 * (⌈(lon - 180) / 360⌉ : ℤ) else lon
  if l1 < -180 then l1 + 360 * (⌈(-180 - l1) / 360⌉ : ℤ) else l1

/-- The WebMercator branch of `calculateTileBounds` (lines 449-484) as far
as the geographic bounding box `(minLon, minLat, maxLon, maxLat)` it
produces, including its two antimeridian corrections (lines 473-482). -/
noncomputable def mercatorBBoxToDegrees (b : ℝ × ℝ × ℝ × ℝ) : ℝ × ℝ × ℝ × ℝ :=
  let minLon := lonFromX b.1
  let minLat := latFromY b.2.1
  let maxLon := lonFromX b.2.2.1
  let maxLat := latFromY b.2.2.2
  let nearPos180 := |minLon - 180| < 0.01 ∧ |maxLon - 180| < 0.01
  let minLon1 := if nearPos180 then -180 else minLon
  let maxLon1 := if nearPos180 then 180 else maxLon
  let minLon2 := if minLon1 > maxLon1 then -180 else minLon1
  let maxLon2 := if minLon1 > maxLon1 then 180 else maxLon1
  (minLon2, minLat, maxLon2, maxLat)

/-- The Geographic branch of `calculateTileBounds` (lines 485-530):
normalize latitudes and longitudes, then the three corrections in source
order — dateline straddle (line 511), tiny-longitude-span versus large
latitude span (line 517), both ends near ±180° (lines 522-527). -/
noncomputable def geographicBBoxToDegrees (b : ℝ × ℝ × ℝ × ℝ) : ℝ × ℝ × ℝ × ℝ :=
  let minLat := clampMercLat b.2.1
  let maxLat := clampMercLat b.2.2.2
  let minLon := normalizeLon b.1
  let maxLon := normalizeLon b.2.2.1
  let lonSpan := |maxLon - minLon|
  let latSpan := |maxLat - minLat|
  let minLon1 := if minLon > maxLon then -180 else minLon
  let maxLon1 := if minLon > maxLon then 180 else maxLon
  let spanOdd := lonSpan < 1 ∧ latSpan > 10
  let minLon2 := if spanOdd then -180 else minLon1
  let maxLon2 := if spanOdd then 180 else maxLon1
  let near180 := (|minLon2 - 180| < 0.01 ∧ |maxLon2 - 180| < 0.01) ∨
    (|minLon2 + 180| < 0.01 ∧ |maxLon2 + 180| < 0.01)
  let minLon3 := if near180 then -180 else minLon2
  let maxLon3 := if near180 then 180 else maxLon2
  (minLon3, minLat, maxLon3, maxLat)

/-! ## Lemmas about the color model -/

theorem quantileOf_pair (a b p : ℚ) (hp0 : 0 ≤ p) (hp1 : p < 1) :
    quantileOf [a, b] p = a := by
  have hfl : (⌊p⌋ : ℤ) = 0 := Int.floor_eq_zero_iff.mpr ⟨hp0, hp1⟩
  rw [quantileOf]
  simp only [List.length_cons, List.length_nil]
  norm_num [hfl]

theorem quantileOf_single (a p : ℚ) : quantileOf [a] p = a := by
  rw [quantileOf]
  simp only [List.length_cons, List.length_nil]
  norm_num

theorem sampleStride_hundred : sampleStride 100 = 50 := by
  rw [sampleStride]
  have hf1 : (⌊((100 : ℕ) : ℚ) * 0.02⌋ : ℤ) = 2 := by
    rw [Int.floor_eq_iff]
    push_cast
    norm_num
  rw [hf1]
  decide

theorem sampledValues_dataHundred : sampledValues dataHundred = [1, 51] := by
  have hlen : dataHundred.length = 100 := by
    rw [dataHundred, List.length_map, List.length_range]
  have h0 : dataHundred.getD 0 0 = 1 := by
    rw [dataHundred, List.getD_eq_getElem?_getD, List.getElem?_map,
      List.getElem?_range (by norm_num)]
    norm_num
  have h50 : dataHundred.getD 50 0 = 51 := by
    rw [dataHundred, List.getD_eq_getElem?_getD, List.getElem?_map,
      List.getElem?_range (by norm_num)]
    norm_num
  rw [sampledValues, hlen, sampleStride_hundred]
  rw [show (100 + 50 - 1) / 50 = 2 from by norm_num,
    show List.range 2 = [0, 1] from by decide]
  simp only [List.map_cons, List.map_nil, Nat.zero_mul, Nat.one_mul]
  rw [h0, h50]
  norm_num [List.filter]

theorem build_dataHundred_eq :
    buildColorScaleFromData dataHundred = some ⟨[1, 1, 1, 1, 1, 1], viirsColors⟩ := by
  have hsort : List.insertionSort (· ≤ ·) [(1:ℚ), 51] = [1, 51] := by
    norm_num [List.insertionSort, List.orderedInsert]
  rw [buildColorScaleFromData]
  simp only [sampledValues_dataHundred, hsort]
  rw [if_neg (by norm_num)]
  rw [quantileOf_pair 1 51 0.20 (by norm_num) (by norm_num),
    quantileOf_pair 1 51 0.40 (by norm_num) (by norm_num),
    quantileOf_pair 1 51 0.60 (by norm_num) (by norm_num),
    quantileOf_pair 1 51 0.80 (by norm_num) (by norm_num),
    quantileOf_pair 1 51 0.90 (by norm_num) (by norm_num),
    quantileOf_pair 1 51 0.98 (by norm_num) (by norm_num)]

theorem build_oneTwoThree_eq :
    buildColorScaleFromData [1, 2, 3] = some ⟨[1, 1, 1, 1, 1, 1], viirsColors⟩ := by
  have hstride : sampleStride 3 = 3 := by
    rw [sampleStride]
    have hf1 : (⌊((3 : ℕ) : ℚ) * 0.02⌋ : ℤ) = 0 := by
      rw [Int.floor_eq_iff]
      push_cast
      norm_num
    rw [hf1]
    decide
  have hsv : sampledValues [1, 2, 3] = [1] := by
    rw [sampledValues]
    rw [show ([(1:ℚ), 2, 3]).length = 3 from rfl, hstride]
    rw [show (3 + 3 - 1) / 3 = 1 from by norm_num,
      show List.range 1 = [0] from by decide]
    simp only [List.map_cons, List.map_nil, Nat.zero_mul]
    rw [show ([(1:ℚ), 2, 3]).getD 0 0 = 1 from rfl]
    norm_num [List.filter]
  have hsort : List.insertionSort (· ≤ ·) [(1:ℚ)] = [1] := rfl
  rw [buildColorScaleFromData]
  simp only [hsv, hsort]
  rw [if_neg (by norm_num)]
  rw [quantileOf_single 1 0.20, quantileOf_single 1 0.40, quantileOf_single 1 0.60,
    quantileOf_single 1 0.80, quantileOf_single 1 0.90, quantileOf_single 1 0.98]

theorem rampIndex_mono (breaks : List ℚ) {v1 v2 : ℚ} (h : v1 ≤ v2) :
    rampIndex breaks v1 ≤ rampIndex breaks v2 := by
  induction breaks with
  | nil => exact le_refl 0
  | cons b bs ih =>
    by_cases hb : b < v1
    · have hb2 : b < v2 := lt_of_lt_of_le hb h
      simpa [rampIndex, List.takeWhile_cons, hb, hb2] using ih
    · simp [rampIndex, List.takeWhile_cons, hb]

/-- C2: for every value that is ≤ 0 or non-finite (including
`undefined`/`null`/`NaN`, modelled by `none`), `valueToColor` returns a
fully transparent color (alpha = 0), whichever color scale (data-driven or
the fallback ramp, i.e. any `scale`) is active. -/
theorem c2_valueToColor_noData (scale : Option ColorScale) (value : Option ℚ)
    (h : value = none ∨ ∃ v, value = some v ∧ v ≤ 0) :
    (valueToColor scale value).alpha = 0 := by
  rcases h with rfl | ⟨v, rfl, hv⟩
  · rfl
  · simp [valueToColor, hv]

/-- Witness for C2 at the concrete inputs `none` (no data) and `-5`. -/
theorem c2_valueToColor_noData_witness :
    (valueToColor none none).alpha = 0 ∧
      (valueToColor (some ⟨[1], viirsColors⟩) (some (-5))).alpha = 0 :=
  ⟨c2_valueToColor_noData none none (Or.inl rfl),
   c2_valueToColor_noData (some ⟨[1], viirsColors⟩) (some (-5))
     (Or.inr ⟨-5, rfl, by norm_num⟩)⟩

/-- C3: for any color scale produced by `buildColorScaleFromData` and
positive finite values `v1 < v2`, the ramp index of the `valueToColor`
while-loop at `v1` is at most the one at `v2`, and so is the clamped index
`min idx (colors.length - 1)` actually used to select the color. -/
theorem c3_rampIndex_monotone (data : List ℚ) (cs : ColorScale)
    (hcs : buildColorScaleFromData data = some cs) (v1 v2 : ℚ)
    (h1 : 0 < v1) (h12 : v1 < v2) :
    rampIndex cs.breaks v1 ≤ rampIndex cs.breaks v2 ∧
      min (rampIndex cs.breaks v1) (cs.colors.length - 1) ≤
        min (rampIndex cs.breaks v2) (cs.colors.length - 1) := by
  have h := rampIndex_mono cs.breaks h12.le
  exact ⟨h, min_le_min h le_rfl⟩

/-- Witness for C3 on the scale built from `[1, 2, 3]` and values
`1/2 < 2`. -/
theorem c3_rampIndex_monotone_witness :
    rampIndex (ColorScale.mk [1, 1, 1, 1, 1, 1] viirsColors).breaks (1/2) ≤
      rampIndex (ColorScale.mk [1, 1, 1, 1, 1, 1] viirsColors).breaks 2 ∧
      min (rampIndex (ColorScale.mk [1, 1, 1, 1, 1, 1] viirsColors).breaks (1/2))
          ((ColorScale.mk [1, 1, 1, 1, 1, 1] viirsColors).colors.length - 1) ≤
        min (rampIndex (ColorScale.mk [1, 1, 1, 1, 1, 1] viirsColors).breaks 2)
          ((ColorScale.mk [1, 1, 1, 1, 1, 1] viirsColors).colors.length - 1) :=
  c3_rampIndex_monotone [1, 2, 3] ⟨[1, 1, 1, 1, 1, 1], viirsColors⟩ build_oneTwoThree_eq
    (1/2) 2 (by norm_num) (by norm_num)

/-- C5 counterexample: on the synthetic uniform sequence {1, …, 100} the
strided sampler keeps only indices 0 and 50 (step = 50, 2% of 100 samples),
so `buildColorScaleFromData` returns six breaks all equal to 1 — the first
break is 1, not within ±1 of the claimed ≈20 (nor are the others near
40, 60, 80, 90, 98). -/
theorem c5_quantileBreaks_counterexample :
    (buildColorScaleFromData dataHundred).map ColorScale.breaks =
      some [1, 1, 1, 1, 1, 1] ∧ ¬|(1 : ℚ) - 20| ≤ 1 := by
  constructor
  · rw [build_dataHundred_eq]
    rfl
  · rw [abs_of_nonpos (by norm_num)]
    norm_num

/-- C5 amended: over {1, …, 100} the sampling step is
`max 1 (100 / min 500000 ⌊100·0.02⌋) = 50`, the collected sample list is
`[1, 51]`, and all six quantile breaks equal 1. -/
theorem c5_quantileBreaks_amended :
    buildColorScaleFromData dataHundred = some ⟨[1, 1, 1, 1, 1, 1], viirsColors⟩ :=
  build_dataHundred_eq

/-! ## Lemmas about the tile pyramid writer -/

theorem generateTile_dirs (se sk : Bool) (render : ℕ × ℕ × ℕ → TileRender)
    (fs : FS) (c : ℕ × ℕ × ℕ) (d : ℕ × ℕ) :
    (generateTileFromData se sk render fs c).dirs d =
      if d = (c.1, c.2.1) then true else fs.dirs d := by
  simp only [generateTileFromData]
  split
  · rfl
  · split <;> rfl

theorem generateTile_files (se sk : Bool) (render : ℕ × ℕ × ℕ → TileRender)
    (fs : FS) (c : ℕ × ℕ × ℕ) :
    (generateTileFromData se sk render fs c).files =
      if se && (fs.files c).isSome then fs.files
      else if sk && !(render c).anyOpaque then
        fun c2 => if c2 = c then none else fs.files c2
      else fun c2 => if c2 = c then some (render c).bytes else fs.files c2 := by
  simp only [generateTileFromData]
  split
  · rfl
  · split <;> rfl

theorem visited_after (sk : Bool) (render : ℕ × ℕ × ℕ → TileRender)
    (fs : FS) (c : ℕ × ℕ × ℕ) :
    Visited sk render (generateTileFromData true sk render fs c) c := by
  constructor
  · rw [generateTile_dirs]
    simp
  · rw [generateTile_files]
    split
    · rename_i h
      left
      simpa using h
    · split
      · rename_i h
        right
        obtain ⟨hsk, hop⟩ := Bool.and_eq_true _ _ ▸ h
        exact ⟨hsk, by simp, by simpa using hop⟩
      · left
        simp

theorem visited_mono (sk : Bool) (render : ℕ × ℕ × ℕ → TileRender)
    (fs : FS) (c c' : ℕ × ℕ × ℕ) (h : Visited sk render fs c) :
    Visited sk render (generateTileFromData true sk render fs c') c := by
  by_cases hc : c = c'
  · subst hc; exact visited_after sk render fs c
  · obtain ⟨hd, hf⟩ := h
    constructor
    · rw [generateTile_dirs]
      split <;> simp [hd]
    · rw [generateTile_files]
      split
      · exact hf
      · split <;> simpa [hc] using hf

theorem generateTile_of_visited (sk : Bool) (render : ℕ × ℕ × ℕ → TileRender)
    (fs : FS) (c : ℕ × ℕ × ℕ) (h : Visited sk render fs c) :
    generateTileFromData true sk render fs c = fs := by
  obtain ⟨hd, hf⟩ := h
  apply FS.ext
  · funext d
    rw [generateTile_dirs]
    split
    · rename_i hdd
      subst hdd
      exact hd.symm
    · rfl
  · rw [generateTile_files]
    rcases hf with hs | ⟨hsk, hnone, hop⟩
    · rw [if_pos (by simp [hs])]
    · subst hsk
      rw [if_neg (by simp [hnone]), if_pos (by simp [hop])]
      funext c2
      split
      · rename_i hc2; subst hc2; exact hnone.symm
      · rfl

theorem runTiles_cons (se sk : Bool) (render : ℕ × ℕ × ℕ → TileRender)
    (c : ℕ × ℕ × ℕ) (cs : List (ℕ × ℕ × ℕ)) (fs : FS) :
    runTiles se sk render (c :: cs) fs =
      runTiles se sk render cs (generateTileFromData se sk render fs c) := rfl

theorem runTiles_preserves_visited (sk : Bool) (render : ℕ × ℕ × ℕ → TileRender)
    (cs : List (ℕ × ℕ × ℕ)) (fs : FS) (c : ℕ × ℕ × ℕ)
    (h : Visited sk render fs c) :
    Visited sk render (runTiles true sk render cs fs) c := by
  induction cs generalizing fs with
  | nil => exact h
  | cons c' cs ih =>
    rw [runTiles_cons]
    exact ih _ (visited_mono sk render fs c c' h)

theorem runTiles_visited (sk : Bool) (render : ℕ × ℕ × ℕ → TileRender)
    (cs : List (ℕ × ℕ × ℕ)) (fs : FS) :
    ∀ c ∈ cs, Visited sk render (runTiles true sk render cs fs) c := by
  induction cs generalizing fs with
  | nil => intro c hc; exact absurd hc (List.not_mem_nil c)
  | cons c' cs ih =>
    intro c hc
    rw [runTiles_cons]
    rcases List.mem_cons.mp hc with rfl | hmem
    · exact runTiles_preserves_visited sk render cs _ c (visited_after sk render fs c)
    · exact ih _ c hmem

theorem runTiles_of_visited (sk : Bool) (render : ℕ × ℕ × ℕ → TileRender)
    (cs : List (ℕ × ℕ × ℕ)) (fs : FS)
    (h : ∀ c ∈ cs, Visited sk render fs c) :
    runTiles true sk render cs fs = fs := by
  induction cs with
  | nil => rfl
  | cons c cs ih =>
    rw [runTiles_cons, generateTile_of_visited sk render fs c (h c (List.mem_cons_self c cs))]
    exact ih fun c2 hc2 => h c2 (List.mem_cons_of_mem c hc2)

theorem runTiles_keeps_existing (sk : Bool) (render : ℕ × ℕ × ℕ → TileRender)
    (cs : List (ℕ × ℕ × ℕ)) (fs : FS) (c : ℕ × ℕ × ℕ)
    (h : (fs.files c).isSome = true) :
    (runTiles true sk render cs fs).files c = fs.files c := by
  induction cs generalizing fs with
  | nil => rfl
  | cons c' cs ih =>
    rw [runTiles_cons]
    have hstep : (generateTileFromData true sk render fs c').files c = fs.files c := by
      rw [generateTile_files]
      by_cases hc : c = c'
      · subst hc
        rw [if_pos (by simp [h])]
      · split
        · rfl
        · split <;> simp [hc]
    rw [ih _ (by rw [hstep]; exact h), hstep]

/-- C6: with `skipExisting = true` the tile loop is idempotent — running it
twice from any starting tree produces the same tree as running it once —
and it never rewrites a tile file that already exists, so a re-run on a
partially written pyramid only fills gaps. -/
theorem c6_runTiles_idempotent (skipEmpty : Bool) (render : ℕ × ℕ × ℕ → TileRender)
    (cs : List (ℕ × ℕ × ℕ)) (fs : FS) :
    runTiles true skipEmpty render cs (runTiles true skipEmpty render cs fs) =
      runTiles true skipEmpty render cs fs ∧
      ∀ c, (fs.files c).isSome = true →
        (runTiles true skipEmpty render cs fs).files c = fs.files c :=
  ⟨runTiles_of_visited skipEmpty render cs _ (runTiles_visited skipEmpty render cs fs),
   fun c hc => runTiles_keeps_existing skipEmpty render cs fs c hc⟩

/-- Witness for C6: idempotence over the singleton batch `[(9,9,9)]` on a
tree holding files at `1/2/3` and `0/0/0`, and preservation of the
pre-existing file `1/2/3`. -/
theorem c6_runTiles_idempotent_witness :
    runTiles true true renderEmpty [(9, 9, 9)]
        (runTiles true true renderEmpty [(9, 9, 9)] twoFileFS) =
      runTiles true true renderEmpty [(9, 9, 9)] twoFileFS ∧
      (runTiles true true renderEmpty [(9, 9, 9)] twoFileFS).files (1, 2, 3) =
        twoFileFS.files (1, 2, 3) :=
  ⟨(c6_runTiles_idempotent true renderEmpty [(9, 9, 9)] twoFileFS).1,
   (c6_runTiles_idempotent true renderEmpty [(9, 9, 9)] twoFileFS).2 (1, 2, 3) (by decide)⟩

/-- C8: if `skipEmpty` is on and the rendered tile has no opaque pixel
(`anyOpaque = false`) — the tile being actually rendered, i.e. not
short-circuited by `skipExisting` — then afterwards no file exists at that
tile's path (any stale file was deleted, nothing was written), and every
other coordinate's file is untouched. -/
theorem c8_emptyPurge (skipExisting : Bool) (render : ℕ × ℕ × ℕ → TileRender)
    (fs : FS) (c : ℕ × ℕ × ℕ)
    (hempty : (render c).anyOpaque = false)
    (hrendered : skipExisting = true → fs.files c = none) :
    (generateTileFromData skipExisting true render fs c).files c = none ∧
      ∀ c2, c2 ≠ c →
        (generateTileFromData skipExisting true render fs c).files c2 = fs.files c2 := by
  have hskip : (skipExisting && (fs.files c).isSome) = false := by
    cases skipExisting
    · rfl
    · simp [hrendered rfl]
  rw [generateTile_files, hskip]
  simp only [Bool.false_eq_true, if_false, hempty, Bool.not_false, Bool.and_true,
    Bool.and_self, if_true]
  exact ⟨by simp, fun c2 hc2 => by simp [hc2]⟩

/-- Witness for C8: purging tile `1/2/3` (which holds a stale file) leaves
`0/0/0` intact and `1/2/3` deleted. -/
theorem c8_emptyPurge_witness :
    (generateTileFromData false true renderEmpty twoFileFS (1, 2, 3)).files (1, 2, 3) = none ∧
      (generateTileFromData false true renderEmpty twoFileFS (1, 2, 3)).files (0, 0, 0) =
        twoFileFS.files (0, 0, 0) :=
  ⟨(c8_emptyPurge false renderEmpty twoFileFS (1, 2, 3) rfl (by simp)).1,
   (c8_emptyPurge false renderEmpty twoFileFS (1, 2, 3) rfl (by simp)).2 (0, 0, 0) (by decide)⟩

/-- C10: `generateTileFromData` creates the `{z}/{x}` directory before the
`skipExisting`/`skipEmpty` policies run, so the directory exists after
every visit regardless of flags or outcome; in particular a run over an
empty tree with an all-transparent renderer leaves the directory `3/5` in
place with no file under it. -/
theorem c10_generateTile_createsDir :
    (∀ (se sk : Bool) (render : ℕ × ℕ × ℕ → TileRender) (fs : FS) (c : ℕ × ℕ × ℕ),
        (generateTileFromData se sk render fs c).dirs (c.1, c.2.1) = true) ∧
      (generateTileFromData false true renderEmpty emptyFS (3, 5, 7)).dirs (3, 5) = true ∧
      ∀ y, (generateTileFromData false true renderEmpty emptyFS (3, 5, 7)).files (3, 5, y) = none := by
  refine ⟨fun se sk render fs c => ?_, ?_, fun y => ?_⟩
  · rw [generateTile_dirs]
    simp
  · rw [generateTile_dirs]
    simp
  · rw [generateTile_files]
    split
    · rfl
    · split
      · simp [emptyFS]
      · rename_i h
        simp [renderEmpty] at h

/-- C9: a NaN in any of the three arguments of `latLonToTile` makes it
return the fixed tile `{x: 0, y: 0}` instead of failing or propagating. -/
theorem c9_latLonToTile_nan (lat lon : Option ℝ) (zoom : Option ℕ)
    (h : lat = none ∨ lon = none ∨ zoom = none) :
    latLonToTile lat lon zoom = ⟨0, 0⟩ := by
  rcases h with rfl | rfl | rfl
  · cases lon <;> cases zoom <;> rfl
  · cases lat <;> cases zoom <;> rfl
  · cases lat <;> cases lon <;> rfl

/-- Witness for C9 with a NaN latitude. -/
theorem c9_latLonToTile_nan_witness :
    latLonToTile none (some 0) (some 0) = ⟨0, 0⟩ :=
  c9_latLonToTile_nan none (some 0) (some 0) (Or.inl rfl)

/-! ## Lemmas about tile addressing -/

theorem one_le_two_pow_real (z : ℕ) : (1 : ℝ) ≤ 2 ^ z := by
  exact_mod_cast Nat.one_le_pow z 2 (by norm_num)

theorem one_le_two_pow_int (z : ℕ) : (1 : ℤ) ≤ 2 ^ z := by
  exact_mod_cast Nat.one_le_pow z 2 (by norm_num)

/-- C7: on any (finite) real latitude and longitude and natural zoom,
`latLonToTile` returns integer indices x, y clamped into [0, 2^z − 1]; and
whenever the latitude trigonometric factor is non-finite, the y index
resolves to the pole-adjacent row — 0 for the north pole (lat > 0) and
2^z − 1 for the south pole. -/
theorem c7_latLonToTile_range :
    (∀ (lat lon : ℝ) (z : ℕ), ∃ xi yi : ℤ,
        latLonToTileCore lat lon z = ⟨(xi : ℝ), (yi : ℝ)⟩ ∧
        0 ≤ xi ∧ xi ≤ 2 ^ z - 1 ∧ 0 ≤ yi ∧ yi ≤ 2 ^ z - 1) ∧
    ∀ (lat lon : ℝ) (z : ℕ),
      (latLonToTileWithFactor none lat lon z).y =
        if lat > 0 then 0 else (2 : ℝ) ^ z - 1 := by
  constructor
  · intro lat lon z
    refine ⟨max 0 (min (2 ^ z - 1) ⌊(lon + 180) / 360 * (2 : ℝ) ^ z⌋),
      max 0 (min (2 ^ z - 1) ⌊(1 - latFactorOf lat / Real.pi) / 2 * (2 : ℝ) ^ z⌋),
      ?_, le_max_left _ _, ?_, le_max_left _ _, ?_⟩
    · simp only [latLonToTileCore, latLonToTileWithFactor, yTileFromLatFactor]
      have hc : ∀ a : ℤ, ((max 0 (min (2 ^ z - 1) a) : ℤ) : ℝ) =
          max 0 (min ((2 : ℝ) ^ z - 1) (a : ℝ)) := by
        intro a
        push_cast
        rfl
      rw [hc, hc]
    · exact max_le (by linarith [one_le_two_pow_int z]) (min_le_left _ _)
    · exact max_le (by linarith [one_le_two_pow_int z]) (min_le_left _ _)
  · intro lat lon z
    simp only [latLonToTileWithFactor, yTileFromLatFactor]
    by_cases hl : lat > 0
    · rw [if_pos hl, min_eq_right (by linarith [one_le_two_pow_real z]), max_self]
    · rw [if_neg hl, min_self, max_eq_right (by linarith [one_le_two_pow_real z])]

/-! ## Lemmas about the bounding-box branches of `calculateTileBounds` -/

theorem lonFromX_clamped_neg (x : ℝ) (hx : x ≤ -20037590) : lonFromX x = -180 := by
  have hπ : Real.pi < 3.141593 := Real.pi_lt_d6
  have ht : x / 6378137 * (180 / Real.pi) ≤ -180 := by
    rw [div_mul_div_comm, div_le_iff (by positivity)]
    nlinarith [Real.pi_pos]
  rw [lonFromX, min_eq_right (le_trans ht (by norm_num)), max_eq_left ht]

theorem lonFromX_clamped_pos (x : ℝ) (hx : 20037590 ≤ x) : lonFromX x = 180 := by
  have hπ : Real.pi < 3.141593 := Real.pi_lt_d6
  have ht : (180 : ℝ) ≤ x / 6378137 * (180 / Real.pi) := by
    rw [div_mul_div_comm, le_div_iff (by positivity)]
    nlinarith [Real.pi_pos]
  rw [lonFromX, min_eq_left ht, max_eq_right (by norm_num)]

theorem normalizeLon_eq_self {lon : ℝ} (h1 : -180 ≤ lon) (h2 : lon ≤ 180) :
    normalizeLon lon = lon := by
  simp only [normalizeLon]
  rw [if_neg (not_lt.mpr h2), if_neg (not_lt.mpr h1)]

/-- C4 counterexample: a WebMercator bbox whose two x-coordinates both
convert (after the ±180 clamp) to exactly −180° satisfies the "both
longitudes within 0.01° of −180°" condition, yet the WebMercator branch
leaves the collapsed longitude range [−180, −180] instead of widening it to
[−180, 180] — the near-(−180) correction exists only in the Geographic
branch. -/
theorem c4_identicalCorrection_counterexample :
    |lonFromX (-20037600) + 180| < 0.01 ∧ |lonFromX (-20037590) + 180| < 0.01 ∧
      ¬((mercatorBBoxToDegrees (-20037600, 0, -20037590, 1000)).1 = -180 ∧
        (mercatorBBoxToDegrees (-20037600, 0, -20037590, 1000)).2.2.1 = 180) := by
  have hm1 : lonFromX (-20037600) = -180 := lonFromX_clamped_neg _ (by norm_num)
  have hm2 : lonFromX (-20037590) = -180 := lonFromX_clamped_neg _ (by norm_num)
  have hA : ¬(|(-180 : ℝ) - 180| < 0.01 ∧ |(-180 : ℝ) - 180| < 0.01) := by
    intro hh
    have h1 := hh.1
    rw [abs_lt] at h1
    norm_num at h1
  have heval : mercatorBBoxToDegrees (-20037600, 0, -20037590, 1000) =
      (-180, latFromY 0, -180, latFromY 1000) := by
    simp only [mercatorBBoxToDegrees, hm1, hm2, if_neg hA]
    norm_num
  refine ⟨by rw [hm1]; rw [abs_lt]; norm_num, by rw [hm2]; rw [abs_lt]; norm_num, ?_⟩
  rw [heval]
  intro h
  have h2 := h.2
  norm_num at h2

/-- C4 amended: the Geographic branch applies all four widening conditions
(dateline straddle, tiny longitude span with latitude span above 10°, both
ends near +180°, both ends near −180°); the WebMercator branch applies only
the both-near-+180° and the `minLon > maxLon` corrections. -/
theorem c4_identicalCorrection_amended :
    (∀ b : ℝ × ℝ × ℝ × ℝ,
        ((|lonFromX b.1 - 180| < 0.01 ∧ |lonFromX b.2.2.1 - 180| < 0.01) ∨
          lonFromX b.1 > lonFromX b.2.2.1) →
        (mercatorBBoxToDegrees b).1 = -180 ∧ (mercatorBBoxToDegrees b).2.2.1 = 180) ∧
    ∀ b : ℝ × ℝ × ℝ × ℝ,
      (normalizeLon b.1 > normalizeLon b.2.2.1 ∨
        (|normalizeLon b.2.2.1 - normalizeLon b.1| < 1 ∧
          |clampMercLat b.2.2.2 - clampMercLat b.2.1| > 10) ∨
        (|normalizeLon b.1 - 180| < 0.01 ∧ |normalizeLon b.2.2.1 - 180| < 0.01) ∨
        (|normalizeLon b.1 + 180| < 0.01 ∧ |normalizeLon b.2.2.1 + 180| < 0.01)) →
      (geographicBBoxToDegrees b).1 = -180 ∧ (geographicBBoxToDegrees b).2.2.1 = 180 := by
  have hnear180F : ¬((|(-180 : ℝ) - 180| < 0.01 ∧ |(180 : ℝ) - 180| < 0.01) ∨
      (|(-180 : ℝ) + 180| < 0.01 ∧ |(180 : ℝ) + 180| < 0.01)) := by
    intro h
    rcases h with ⟨ha, _⟩ | ⟨_, hb⟩
    · rw [abs_lt] at ha
      norm_num at ha
    · rw [abs_lt] at hb
      norm_num at hb
  constructor
  · intro b h
    simp only [mercatorBBoxToDegrees]
    by_cases h1 : |lonFromX b.1 - 180| < 0.01 ∧ |lonFromX b.2.2.1 - 180| < 0.01
    · rw [if_pos h1, if_pos h1, if_neg (by norm_num), if_neg (by norm_num)]
      exact ⟨rfl, rfl⟩
    · rcases h with h | h
      · exact absurd h h1
      · rw [if_neg h1, if_neg h1, if_pos h, if_pos h]
        exact ⟨rfl, rfl⟩
  · intro b h
    simp only [geographicBBoxToDegrees]
    by_cases h1 : normalizeLon b.1 > normalizeLon b.2.2.1
    · rw [if_pos h1, if_pos h1]
      by_cases h2 : |normalizeLon b.2.2.1 - normalizeLon b.1| < 1 ∧
          |clampMercLat b.2.2.2 - clampMercLat b.2.1| > 10
      · rw [if_pos h2, if_pos h2, if_neg hnear180F, if_neg hnear180F]
        exact ⟨rfl, rfl⟩
      · rw [if_neg h2, if_neg h2, if_neg hnear180F, if_neg hnear180F]
        exact ⟨rfl, rfl⟩
    · rw [if_neg h1, if_neg h1]
      by_cases h2 : |normalizeLon b.2.2.1 - normalizeLon b.1| < 1 ∧
          |clampMercLat b.2.2.2 - clampMercLat b.2.1| > 10
      · rw [if_pos h2, if_pos h2, if_neg hnear180F, if_neg hnear180F]
        exact ⟨rfl, rfl⟩
      · rw [if_neg h2, if_neg h2]
        by_cases h3 : (|normalizeLon b.1 - 180| < 0.01 ∧ |normalizeLon b.2.2.1 - 180| < 0.01) ∨
            (|normalizeLon b.1 + 180| < 0.01 ∧ |normalizeLon b.2.2.1 + 180| < 0.01)
        · rw [if_pos h3, if_pos h3]
          exact ⟨rfl, rfl⟩
        · rcases h with h | h | h | h
          · exact absurd h h1
          · exact absurd ⟨h.1, h.2⟩ h2
          · exact absurd (Or.inl h) h3
          · exact absurd (Or.inr h) h3

/-- Witness for the amended C4: the WebMercator branch widens a bbox whose
x-range clamps to [+180, −180] (inverted), and the Geographic branch widens
the inverted degree range [30, 20]. -/
theorem c4_identicalCorrection_amended_witness :
    ((mercatorBBoxToDegrees (20037600, 0, -20037600, 0)).1 = -180 ∧
      (mercatorBBoxToDegrees (20037600, 0, -20037600, 0)).2.2.1 = 180) ∧
    (geographicBBoxToDegrees (30, 0, 20, 50)).1 = -180 ∧
      (geographicBBoxToDegrees (30, 0, 20, 50)).2.2.1 = 180 :=
  ⟨c4_identicalCorrection_amended.1 (20037600, 0, -20037600, 0)
      (Or.inr (by rw [lonFromX_clamped_pos _ (by norm_num),
        lonFromX_clamped_neg _ (by norm_num)]; norm_num)),
   c4_identicalCorrection_amended.2 (30, 0, 20, 50)
      (Or.inl (by rw [normalizeLon_eq_self (by norm_num) (by norm_num),
        normalizeLon_eq_self (by norm_num) (by norm_num)]; norm_num))⟩

/-! ## Numeric bounds for the round-trip proof -/

theorem exp_three_gt : (20.0855 : ℝ) < Real.exp 3 := by
  have h1 : (2.7182818283 : ℝ) < Real.exp 1 := Real.exp_one_gt_d9
  have h2 : Real.exp 3 = Real.exp 1 ^ 3 := by
    rw [← Real.exp_nat_mul]
    norm_num
  rw [h2]
  have h3 : (2.7182818283 : ℝ) ^ 3 < Real.exp 1 ^ 3 := by
    apply pow_lt_pow_left h1 (by norm_num)
    norm_num
  nlinarith

theorem exp_small_gt : (1.1483 : ℝ) < Real.exp 0.141592 := by
  have h1 : Real.exp 0.141592 = Real.exp (0.141592 / 3) ^ 3 := by
    rw [← Real.exp_nat_mul]
    norm_num
  have h2 : (1 + 0.141592 / 3 : ℝ) ≤ Real.exp (0.141592 / 3) := by
    have := Real.add_one_le_exp (0.141592 / 3 : ℝ)
    linarith
  have h3 : ((1 : ℝ) + 0.141592 / 3) ^ 3 ≤ Real.exp (0.141592 / 3) ^ 3 :=
    pow_le_pow_left (by norm_num) h2 3
  rw [h1]
  nlinarith

theorem exp_pi_gt : (23.06 : ℝ) < Real.exp Real.pi := by
  have hπ : (3.141592 : ℝ) < Real.pi := Real.pi_gt_d6
  have h1 : Real.exp 3.141592 < Real.exp Real.pi := Real.exp_lt_exp.mpr hπ
  have h2 : Real.exp (3.141592 : ℝ) = Real.exp 3 * Real.exp 0.141592 := by
    rw [← Real.exp_add]
    norm_num
  nlinarith [exp_three_gt, exp_small_gt, Real.exp_pos (0.141592 : ℝ), Real.exp_pos (3 : ℝ)]

theorem sinh_pi_gt : (11.49 : ℝ) < Real.sinh Real.pi := by
  have h1 : Real.exp (-Real.pi) < 0.05 := by
    have hπ : (3 : ℝ) < Real.pi := by
      have := Real.pi_gt_d6
      norm_num at this ⊢
      linarith
    have h2 : Real.exp (-Real.pi) < Real.exp (-3) := Real.exp_lt_exp.mpr (by linarith)
    have h3 : Real.exp (-3 : ℝ) = (Real.exp 3)⁻¹ := by rw [← Real.exp_neg]
    have h4 : (Real.exp 3)⁻¹ < 0.05 := by
      rw [inv_lt (Real.exp_pos 3) (by norm_num)]
      nlinarith [exp_three_gt]
    linarith
  rw [Real.sinh_eq]
  nlinarith [exp_pi_gt]

/-- The crucial numeric fact behind the round trip: the clamped latitude
85° stays strictly inside the Web Mercator latitude limit, i.e. its
Mercator ordinate `arsinh (tan 85°) = log (tan 85° + sec 85°)` is < π. -/
theorem tan85_lt_sinh_pi : Real.tan (85 * Real.pi / 180) < Real.sinh Real.pi := by
  have hπl : (3.141592 : ℝ) < Real.pi := Real.pi_gt_d6
  have hπu : Real.pi < 3.141593 := Real.pi_lt_d6
  have hψ0 : (0 : ℝ) < Real.pi / 36 := by linarith
  have hψ1 : Real.pi / 36 ≤ 1 := by linarith
  have hsin : Real.pi / 36 - (Real.pi / 36) ^ 3 / 4 < Real.sin (Real.pi / 36) :=
    Real.sin_gt_sub_cube hψ0 hψ1
  have ha : (0.0872664 : ℝ) < Real.pi / 36 := by linarith
  have hb : Real.pi / 36 < 0.0872665 := by linarith
  have hcube : (Real.pi / 36) ^ 3 < (0.0872665 : ℝ) ^ 3 := by
    apply pow_lt_pow_left hb (by linarith)
    norm_num
  have hsin2 : (0.08706 : ℝ) < Real.sin (Real.pi / 36) := by nlinarith
  have hcos1 : Real.cos (Real.pi / 36) ≤ 1 := Real.cos_le_one _
  have hcospos : (0 : ℝ) < Real.cos (Real.pi / 36) := by
    apply Real.cos_pos_of_mem_Ioo
    constructor <;> [linarith; linarith]
  have htan : (0.08706 : ℝ) < Real.tan (Real.pi / 36) := by
    rw [Real.tan_eq_sin_div_cos]
    have : Real.sin (Real.pi / 36) ≤ Real.sin (Real.pi / 36) / Real.cos (Real.pi / 36) := by
      rw [le_div_iff hcospos]
      nlinarith
    linarith
  have heq : (85 : ℝ) * Real.pi / 180 = Real.pi / 2 - Real.pi / 36 := by ring
  rw [heq, Real.tan_pi_div_two_sub]
  have hinv : (Real.tan (Real.pi / 36))⁻¹ < (0.08706 : ℝ)⁻¹ := by
    apply inv_lt_inv_of_lt (by norm_num) htan
  have : ((0.08706 : ℝ))⁻¹ < 11.49 := by norm_num
  linarith [sinh_pi_gt]

theorem exp_pi_lt : Real.exp Real.pi < 23.4 := by
  have hπ : Real.pi < 3.141593 := Real.pi_lt_d6
  have h1 : Real.exp Real.pi < Real.exp 3.141593 := Real.exp_lt_exp.mpr hπ
  have h2 : Real.exp (3.141593 : ℝ) = Real.exp 3 * Real.exp 0.141593 := by
    rw [← Real.exp_add]
    norm_num
  have h3 : Real.exp 3 < 20.0856 := by
    have ha : Real.exp 1 < 2.7182818286 := Real.exp_one_lt_d9
    have hb : Real.exp 3 = Real.exp 1 ^ 3 := by
      rw [← Real.exp_nat_mul]
      norm_num
    rw [hb]
    have hc : Real.exp 1 ^ 3 < (2.7182818286 : ℝ) ^ 3 := by
      apply pow_lt_pow_left ha (Real.exp_pos 1).le
      norm_num
    nlinarith
  have h4 : Real.exp (0.141593 : ℝ) < 1.16495 := by
    have ha := Real.add_one_le_exp (-0.141593 : ℝ)
    rw [Real.exp_neg] at ha
    have hb : (0 : ℝ) < Real.exp 0.141593 := Real.exp_pos _
    have hc : Real.exp 0.141593 * (Real.exp 0.141593)⁻¹ = 1 :=
      mul_inv_cancel₀ (Real.exp_pos _).ne'
    nlinarith [mul_le_mul_of_nonneg_left ha hb.le]
  nlinarith [Real.exp_pos (0.141593 : ℝ), Real.exp_pos (3 : ℝ)]

theorem sinh_pi_lt : Real.sinh Real.pi < 11.7 := by
  rw [Real.sinh_eq]
  nlinarith [exp_pi_lt, Real.exp_pos (-Real.pi)]

theorem tan_pi_div_180_lt : Real.tan (Real.pi / 180) < 0.05 := by
  have hπl : (3.141592 : ℝ) < Real.pi := Real.pi_gt_d6
  have hπu : Real.pi < 3.141593 := Real.pi_lt_d6
  have hx0 : (0 : ℝ) < Real.pi / 180 := by linarith
  have hsin : Real.sin (Real.pi / 180) < Real.pi / 180 := Real.sin_lt hx0
  have hcos : (1 : ℝ) / 2 < Real.cos (Real.pi / 180) := by
    have h1 : Real.cos (Real.pi / 3) < Real.cos (Real.pi / 180) := by
      apply Real.cos_lt_cos_of_nonneg_of_le_pi hx0.le (by linarith)
      linarith
    rwa [Real.cos_pi_div_three] at h1
  rw [Real.tan_eq_sin_div_cos, div_lt_iff (by linarith)]
  nlinarith

/-- The north edge of the zoom-0 tile, `arctan (sinh π) · 180/π`
(≈ 85.051°), is below 89°. -/
theorem north_z0_lt_89 : Real.arctan (Real.sinh Real.pi) * 180 / Real.pi < 89 := by
  have htpos : 0 < Real.tan (Real.pi / 180) := by
    apply Real.tan_pos_of_pos_of_lt_pi_div_two
    · positivity
    · nlinarith [Real.pi_pos]
  have h1 : Real.sinh Real.pi < (Real.tan (Real.pi / 180))⁻¹ := by
    rw [inv_eq_one_div, lt_div_iff htpos]
    nlinarith [sinh_pi_lt, tan_pi_div_180_lt, Real.sinh_pos_iff.mpr Real.pi_pos]
  have h2 : (89 : ℝ) * Real.pi / 180 = Real.pi / 2 - Real.pi / 180 := by ring
  have h3 : Real.sinh Real.pi < Real.tan (89 * Real.pi / 180) := by
    rw [h2, Real.tan_pi_div_two_sub]
    exact h1
  have h4 : Real.arctan (Real.sinh Real.pi) < 89 * Real.pi / 180 := by
    have ha := Real.arctan_strictMono h3
    rwa [Real.arctan_tan (by nlinarith [Real.pi_pos]) (by nlinarith [Real.pi_pos])] at ha
  have h5 := mul_lt_mul_of_pos_right h4 (show (0:ℝ) < 180 / Real.pi by positivity)
  calc Real.arctan (Real.sinh Real.pi) * 180 / Real.pi
      = Real.arctan (Real.sinh Real.pi) * (180 / Real.pi) := by ring
    _ < 89 * Real.pi / 180 * (180 / Real.pi) := h5
    _ = 89 := by field_simp

theorem latFactorOf_eq_arsinh (lat : ℝ) (h1 : -85 ≤ lat) (h2 : lat ≤ 85) :
    latFactorOf lat = Real.arsinh (Real.tan (lat * Real.pi / 180)) := by
  have hclamp : max (-85.0511 : ℝ) (min 85.0511 lat) = lat := by
    rw [min_eq_right (by linarith), max_eq_right (by linarith)]
  have hcos : 0 < Real.cos (lat * Real.pi / 180) := by
    apply Real.cos_pos_of_mem_Ioo
    constructor
    · nlinarith [Real.pi_pos]
    · nlinarith [Real.pi_pos]
  simp only [latFactorOf, hclamp, Real.arsinh]
  congr 1
  have hsq := Real.inv_sqrt_one_add_tan_sq hcos
  have hs : Real.sqrt (1 + Real.tan (lat * Real.pi / 180) ^ 2) =
      (Real.cos (lat * Real.pi / 180))⁻¹ := by
    rw [inv_eq_iff_eq_inv] at hsq
    exact hsq
  rw [hs, one_div]

theorem arsinh_tan85_lt_pi : Real.arsinh (Real.tan (85 * Real.pi / 180)) < Real.pi := by
  have h1 : Real.arsinh (Real.tan (85 * Real.pi / 180)) <
      Real.arsinh (Real.sinh Real.pi) := Real.arsinh_lt_arsinh.mpr tan85_lt_sinh_pi
  rwa [Real.arsinh_sinh] at h1

theorem latFactorOf_bounds (lat : ℝ) (h1 : -85 ≤ lat) (h2 : lat ≤ 85) :
    -Real.pi < latFactorOf lat ∧ latFactorOf lat < Real.pi := by
  rw [latFactorOf_eq_arsinh lat h1 h2]
  have hmem : lat * Real.pi / 180 ∈ Set.Ioo (-(Real.pi / 2)) (Real.pi / 2) := by
    constructor
    · nlinarith [Real.pi_pos]
    · nlinarith [Real.pi_pos]
  have hmem85 : (85 : ℝ) * Real.pi / 180 ∈ Set.Ioo (-(Real.pi / 2)) (Real.pi / 2) := by
    constructor
    · nlinarith [Real.pi_pos]
    · nlinarith [Real.pi_pos]
  have hmem85n : -((85 : ℝ) * Real.pi / 180) ∈ Set.Ioo (-(Real.pi / 2)) (Real.pi / 2) := by
    constructor
    · nlinarith [Real.pi_pos]
    · nlinarith [Real.pi_pos]
  have htle : Real.tan (lat * Real.pi / 180) ≤ Real.tan (85 * Real.pi / 180) :=
    Real.strictMonoOn_tan.monotoneOn hmem hmem85 (by nlinarith [Real.pi_pos])
  have htge : Real.tan (-(85 * Real.pi / 180)) ≤ Real.tan (lat * Real.pi / 180) :=
    Real.strictMonoOn_tan.monotoneOn hmem85n hmem (by nlinarith [Real.pi_pos])
  constructor
  · have h3 : Real.arsinh (Real.tan (-(85 * Real.pi / 180))) ≤
        Real.arsinh (Real.tan (lat * Real.pi / 180)) := Real.arsinh_le_arsinh.mpr htge
    rw [Real.tan_neg, Real.arsinh_neg] at h3
    linarith [arsinh_tan85_lt_pi]
  · have h3 : Real.arsinh (Real.tan (lat * Real.pi / 180)) ≤
        Real.arsinh (Real.tan (85 * Real.pi / 180)) := Real.arsinh_le_arsinh.mpr htle
    linarith [arsinh_tan85_lt_pi]

/-- At zoom 0 every input clamps onto the single tile (0, 0): the whole
clamp range is `[0, 2^0 − 1] = [0, 0]`. -/
theorem latLonToTileCore_z0 (lat lon : ℝ) : latLonToTileCore lat lon 0 = ⟨0, 0⟩ := by
  simp only [latLonToTileCore, latLonToTileWithFactor, yTileFromLatFactor]
  have h : ∀ w : ℝ, max 0 (min ((2:ℝ) ^ 0 - 1) w) = 0 := by
    intro w
    rw [show (2:ℝ) ^ 0 - 1 = 0 by norm_num]
    exact max_eq_left (min_le_left 0 w)
  rw [h, h]

/-- C1 counterexample: the claim quantifies over every (lat, lon) that
`latLonToTile` maps to a tile, but clamping breaks containment at the
extremes.  At zoom 0 both (89, 0) (latitude beyond the ±85.0511 clamp) and
(0, 300) (longitude beyond [−180, 180]) map to tile (0, 0), whose bounding
box (north ≈ 85.051°, east = 180°) contains neither point. -/
theorem c1_roundTrip_counterexample :
    (latLonToTileCore 89 0 0 = ⟨0, 0⟩ ∧
      ¬((tileToBoundingBox 0 0 0).south ≤ 89 ∧ (89 : ℝ) ≤ (tileToBoundingBox 0 0 0).north)) ∧
    latLonToTileCore 0 300 0 = ⟨0, 0⟩ ∧
      ¬((tileToBoundingBox 0 0 0).west ≤ 300 ∧ (300 : ℝ) ≤ (tileToBoundingBox 0 0 0).east) := by
  have hnorth : (tileToBoundingBox 0 0 0).north =
      Real.arctan (Real.sinh Real.pi) * 180 / Real.pi := by
    simp only [tileToBoundingBox]
    norm_num
  have heast : (tileToBoundingBox 0 0 0).east = 180 := by
    simp only [tileToBoundingBox]
    norm_num
  refine ⟨⟨latLonToTileCore_z0 89 0, ?_⟩, latLonToTileCore_z0 0 300, ?_⟩
  · intro h
    rw [hnorth] at h
    linarith [north_z0_lt_89, h.2]
  · intro h
    rw [heast] at h
    linarith [h.2]

/-- C1 amended: for every zoom z ≤ 12 and every latitude in [−85, 85] (the
interior of the Mercator clamp) and longitude in [−180, 180], the bounding
box of the tile that `latLonToTile` assigns to (lat, lon) contains
(lat, lon); outside that range the clamping of indices (and of the
latitude to ±85.0511) can put the point outside the returned box. -/
theorem c1_roundTrip_amended (z : ℕ) (hz : z ≤ 12) (lat lon : ℝ)
    (hlat1 : -85 ≤ lat) (hlat2 : lat ≤ 85) (hlon1 : -180 ≤ lon) (hlon2 : lon ≤ 180) :
    (tileToBoundingBox (latLonToTileCore lat lon z).x (latLonToTileCore lat lon z).y z).west ≤ lon ∧
      lon ≤ (tileToBoundingBox (latLonToTileCore lat lon z).x (latLonToTileCore lat lon z).y z).east ∧
      (tileToBoundingBox (latLonToTileCore lat lon z).x (latLonToTileCore lat lon z).y z).south ≤ lat ∧
      lat ≤ (tileToBoundingBox (latLonToTileCore lat lon z).x (latLonToTileCore lat lon z).y z).north := by
  have hn1 : (1 : ℝ) ≤ 2 ^ z := one_le_two_pow_real z
  have hn0 : (0 : ℝ) < 2 ^ z := by linarith
  obtain ⟨hFl, hFu⟩ := latFactorOf_bounds lat hlat1 hlat2
  have hFeq := latFactorOf_eq_arsinh lat hlat1 hlat2
  have hmem : lat * Real.pi / 180 ∈ Set.Ioo (-(Real.pi / 2)) (Real.pi / 2) := by
    constructor
    · nlinarith [Real.pi_pos]
    · nlinarith [Real.pi_pos]
  simp only [latLonToTileCore, latLonToTileWithFactor, yTileFromLatFactor, tileToBoundingBox]
  have hx : max 0 (min ((2:ℝ) ^ z - 1) ((⌊(lon + 180) / 360 * (2:ℝ) ^ z⌋ : ℤ) : ℝ)) /
        (2:ℝ) ^ z * 360 - 180 ≤ lon ∧
      lon ≤ (max 0 (min ((2:ℝ) ^ z - 1) ((⌊(lon + 180) / 360 * (2:ℝ) ^ z⌋ : ℤ) : ℝ)) + 1) /
        (2:ℝ) ^ z * 360 - 180 := by
    set xi : ℤ := ⌊(lon + 180) / 360 * (2:ℝ) ^ z⌋ with hxidef
    have hu0 : 0 ≤ (lon + 180) / 360 * (2:ℝ) ^ z :=
      mul_nonneg (div_nonneg (by linarith) (by norm_num)) hn0.le
    have hu1 : (lon + 180) / 360 * (2:ℝ) ^ z ≤ 2 ^ z := by
      have h1 : (lon + 180) / 360 ≤ 1 := by
        rw [div_le_one (by norm_num : (0:ℝ) < 360)]
        linarith
      nlinarith
    have hxi0 : (0 : ℤ) ≤ xi := Int.floor_nonneg.mpr hu0
    have hfl : (xi : ℝ) ≤ (lon + 180) / 360 * (2:ℝ) ^ z := Int.floor_le _
    have hflup : (lon + 180) / 360 * (2:ℝ) ^ z < (xi : ℝ) + 1 := Int.lt_floor_add_one _
    have hring : (lon + 180) / 360 * (2:ℝ) ^ z * 360 = (lon + 180) * 2 ^ z := by ring
    by_cases hcase : (xi : ℝ) ≤ (2:ℝ) ^ z - 1
    · rw [min_eq_right hcase, max_eq_right (by exact_mod_cast hxi0)]
      constructor
      · rw [div_mul_eq_mul_div, sub_le_iff_le_add, div_le_iff hn0]
        have h1 : (xi : ℝ) * 360 ≤ (lon + 180) / 360 * (2:ℝ) ^ z * 360 :=
          mul_le_mul_of_nonneg_right hfl (by norm_num)
        linarith
      · rw [div_mul_eq_mul_div, le_sub_iff_add_le, le_div_iff hn0]
        have h1 : (lon + 180) / 360 * (2:ℝ) ^ z * 360 < ((xi : ℝ) + 1) * 360 :=
          mul_lt_mul_of_pos_right hflup (by norm_num)
        linarith
    · push_neg at hcase
      have hNr : (((2 : ℤ) ^ z : ℤ) : ℝ) = (2:ℝ) ^ z := by push_cast; rfl
      have hxiN : ((2 : ℤ) ^ z : ℤ) ≤ xi := by
        have h1 : ((2 : ℤ) ^ z : ℤ) - 1 < xi := by
          have h2 : ((((2 : ℤ) ^ z : ℤ) : ℝ)) - 1 < (xi : ℝ) := by rw [hNr]; exact hcase
          exact_mod_cast h2
        linarith
      have hlon180 : 180 ≤ lon := by
        have h1 : ((2:ℝ) ^ z) ≤ (lon + 180) / 360 * (2:ℝ) ^ z := by
          have h2 := Int.le_floor.mp hxiN
          rwa [hNr] at h2
        have h3 : 1 ≤ (lon + 180) / 360 := by nlinarith
        rw [le_div_iff (by norm_num : (0:ℝ) < 360)] at h3
        linarith
      rw [min_eq_left (by linarith), max_eq_right (by linarith)]
      constructor
      · have h1 : ((2:ℝ) ^ z - 1) / 2 ^ z ≤ 1 := by
          rw [div_le_one hn0]
          linarith
        nlinarith
      · rw [show (2:ℝ) ^ z - 1 + 1 = 2 ^ z by ring, div_self hn0.ne']
        linarith
  have hy : Real.arctan (Real.sinh (Real.pi * (1 - 2 * (max 0 (min ((2:ℝ) ^ z - 1)
          ((⌊(1 - latFactorOf lat / Real.pi) / 2 * (2:ℝ) ^ z⌋ : ℤ) : ℝ)) + 1) / (2:ℝ) ^ z))) *
        180 / Real.pi ≤ lat ∧
      lat ≤ Real.arctan (Real.sinh (Real.pi * (1 - 2 * (max 0 (min ((2:ℝ) ^ z - 1)
          ((⌊(1 - latFactorOf lat / Real.pi) / 2 * (2:ℝ) ^ z⌋ : ℤ) : ℝ))) / (2:ℝ) ^ z))) *
        180 / Real.pi := by
    set F := latFactorOf lat with hFdef
    set yi : ℤ := ⌊(1 - F / Real.pi) / 2 * (2:ℝ) ^ z⌋ with hyidef
    have ht0 : 0 < (1 - F / Real.pi) / 2 * (2:ℝ) ^ z := by
      have h1 : F / Real.pi < 1 := (div_lt_one Real.pi_pos).mpr hFu
      nlinarith
    have htn : (1 - F / Real.pi) / 2 * (2:ℝ) ^ z < 2 ^ z := by
      have h1 : -1 < F / Real.pi := by
        rw [lt_div_iff Real.pi_pos]
        linarith
      nlinarith
    have hyi0 : (0 : ℤ) ≤ yi := Int.floor_nonneg.mpr ht0.le
    have hyiu : (yi : ℝ) ≤ (2:ℝ) ^ z - 1 := by
      have h1 : yi < ((2 : ℤ) ^ z : ℤ) := by
        apply Int.floor_lt.mpr
        push_cast
        exact htn
      have h2 : yi ≤ ((2 : ℤ) ^ z : ℤ) - 1 := by linarith
      have h3 : ((yi : ℝ)) ≤ ((((2 : ℤ) ^ z : ℤ) : ℝ)) - 1 := by exact_mod_cast h2
      push_cast at h3
      linarith
    rw [min_eq_right hyiu, max_eq_right (by exact_mod_cast hyi0)]
    have hyfl : (yi : ℝ) ≤ (1 - F / Real.pi) / 2 * (2:ℝ) ^ z := Int.floor_le _
    have hyflup : (1 - F / Real.pi) / 2 * (2:ℝ) ^ z < (yi : ℝ) + 1 := Int.lt_floor_add_one _
    have hlat_eq : lat * Real.pi / 180 * (180 / Real.pi) = lat := by
      field_simp
    constructor
    · have hb : 1 - F / Real.pi < 2 * ((yi : ℝ) + 1) / 2 ^ z := by
        rw [lt_div_iff hn0]
        nlinarith [hyflup]
      have h1 : 1 - 2 * ((yi : ℝ) + 1) / 2 ^ z < F / Real.pi := by linarith
      have hFs : Real.pi * (1 - 2 * ((yi : ℝ) + 1) / 2 ^ z) < F := by
        calc Real.pi * (1 - 2 * ((yi : ℝ) + 1) / 2 ^ z)
            < Real.pi * (F / Real.pi) := mul_lt_mul_of_pos_left h1 Real.pi_pos
          _ = F := by field_simp
      have htan : Real.sinh (Real.pi * (1 - 2 * ((yi : ℝ) + 1) / 2 ^ z)) <
          Real.tan (lat * Real.pi / 180) := by
        have h2 : Real.sinh (Real.pi * (1 - 2 * ((yi : ℝ) + 1) / 2 ^ z)) < Real.sinh F :=
          Real.sinh_lt_sinh.mpr hFs
        rwa [hFeq, Real.sinh_arsinh] at h2
      have harc := Real.arctan_strictMono htan
      rw [Real.arctan_tan hmem.1 hmem.2] at harc
      have h3 := mul_le_mul_of_nonneg_right harc.le
        (show (0:ℝ) ≤ 180 / Real.pi by positivity)
      calc Real.arctan (Real.sinh (Real.pi * (1 - 2 * ((yi : ℝ) + 1) / 2 ^ z))) * 180 / Real.pi
          = Real.arctan (Real.sinh (Real.pi * (1 - 2 * ((yi : ℝ) + 1) / 2 ^ z))) *
            (180 / Real.pi) := by ring
        _ ≤ lat * Real.pi / 180 * (180 / Real.pi) := h3
        _ = lat := hlat_eq
    · have hb : 2 * (yi : ℝ) / 2 ^ z ≤ 1 - F / Real.pi := by
        rw [div_le_iff hn0]
        nlinarith [hyfl]
      have h1 : F / Real.pi ≤ 1 - 2 * (yi : ℝ) / 2 ^ z := by linarith
      have hFs : F ≤ Real.pi * (1 - 2 * (yi : ℝ) / 2 ^ z) := by
        calc F = Real.pi * (F / Real.pi) := by field_simp
          _ ≤ Real.pi * (1 - 2 * (yi : ℝ) / 2 ^ z) :=
            mul_le_mul_of_nonneg_left h1 Real.pi_pos.le
      have htan : Real.tan (lat * Real.pi / 180) ≤
          Real.sinh (Real.pi * (1 - 2 * (yi : ℝ) / 2 ^ z)) := by
        have h2 : Real.sinh F ≤ Real.sinh (Real.pi * (1 - 2 * (yi : ℝ) / 2 ^ z)) :=
          Real.sinh_le_sinh.mpr hFs
        rwa [hFeq, Real.sinh_arsinh] at h2
      have harc := Real.arctan_strictMono.monotone htan
      rw [Real.arctan_tan hmem.1 hmem.2] at harc
      have h3 := mul_le_mul_of_nonneg_right harc
        (show (0:ℝ) ≤ 180 / Real.pi by positivity)
      calc lat = lat * Real.pi / 180 * (180 / Real.pi) := hlat_eq.symm
        _ ≤ Real.arctan (Real.sinh (Real.pi * (1 - 2 * (yi : ℝ) / 2 ^ z))) *
            (180 / Real.pi) := h3
        _ = Real.arctan (Real.sinh (Real.pi * (1 - 2 * (yi : ℝ) / 2 ^ z))) * 180 / Real.pi := by
            ring
  exact ⟨hx.1, hx.2, hy.1, hy.2⟩

/-- Witness for the amended C1 at z = 0, lat = 0, lon = 0. -/
theorem c1_roundTrip_amended_witness :
    (tileToBoundingBox (latLonToTileCore 0 0 0).x (latLonToTileCore 0 0 0).y 0).west ≤ 0 ∧
      (0:ℝ) ≤ (tileToBoundingBox (latLonToTileCore 0 0 0).x (latLonToTileCore 0 0 0).y 0).east ∧
      (tileToBoundingBox (latLonToTileCore 0 0 0).x (latLonToTileCore 0 0 0).y 0).south ≤ 0 ∧
      (0:ℝ) ≤ (tileToBoundingBox (latLonToTileCore 0 0 0).x (latLonToTileCore 0 0 0).y 0).north :=
  c1_roundTrip_amended 0 (by norm_num) 0 0 (by norm_num) (by norm_num) (by norm_num) (by norm_num)

end Darkside
